import Mathlib

/-!
# VendingMachine (src/main.cpp): a shallow embedding

The C++ program keeps all of its state in two process-wide objects: the
singleton `VendingMachine` (which owns the `Inventory`) and `std::cout`.
Both are reachable from every piece of code, including the `name` and `pay`
overrides of a `PaymentStrategy` subclass, so the embedding threads one
`World` value through every operation.

* `int` slot ids and quantities are `Int`; the only arithmetic in the program
  is `quantity--`, executed on a strictly positive value, so no wrap-around
  can occur.
* `double` prices are `Float`; the program only stores and forwards them.
* `unordered_map<int, Slot>` is a function `Int → Option Slot`, with
  `operator[]` modelled together with its insert-when-absent side effect.
* `throw runtime_error(msg)` is `Except.error msg`.
-/

namespace Vending

/-! ## Console output -/

/-- One operand of a `cout << ...` chain. -/
inductive Piece where
  | str (s : String)
  | num (n : Int)
  | dbl (x : Float)

/-- One write to `std::cout`: either a `Logger::info(msg)` line or a direct
`cout << ... ;` statement of the program. -/
inductive Output where
  | info (msg : String)
  | text (pieces : List Piece)

/-- The overload `std::to_string(double)`: the `%f` rendering, which is what
`toString` gives for every value but a NaN; a NaN is rendered `nan` (the sign
that the C library prints for a NaN cannot be observed on a `Float`). -/
def to_string_double (x : Float) : String := if x.isNaN then "nan" else toString x

/-- The overload `std::to_string(int)`. -/
def to_string_int (n : Int) : String := toString n

/-! ## Product and Slot -/

/-- The struct `Product { int id; string name; double price; }`. -/
structure Product where
  id : Int
  name : String
  price : Float

/-- The struct `Slot { Product product; int quantity; }`. -/
structure Slot where
  product : Product
  quantity : Int

/-- The value-initialised `Slot()` that `operator[]` stores for an absent key
(the defaulted constructors zero every member). -/
def Slot.zero : Slot := ⟨⟨0, "", 0⟩, 0⟩

/-! ## The slot table `unordered_map<int, Slot>` -/

/-- The member `slots.count(k)`: 1 when the key is present, 0 otherwise. -/
def count (m : Int → Option Slot) (k : Int) : Nat :=
  if (m k).isSome then 1 else 0

/-- Assignment through the reference to the element stored at key `k`. -/
def assign (m : Int → Option Slot) (k : Int) (v : Slot) : Int → Option Slot :=
  fun j => if j = k then some v else m j

/-- The member `slots[k]`: the element at `k`, and the table afterwards (an
absent key gets a value-initialised element first). -/
def index (m : Int → Option Slot) (k : Int) : Slot × (Int → Option Slot) :=
  match m k with
  | some v => (v, m)
  | none => (Slot.zero, assign m k Slot.zero)

/-! ## Inventory -/

/-- The class `Inventory`, whose only member is `slots`. -/
structure Inventory where
  slots : Int → Option Slot

/-- The method `Inventory::addSlot`: `slots[slotId] = Slot(p, quantity);`. -/
def Inventory.addSlot (inv : Inventory) (slotId : Int) (p : Product) (quantity : Int) :
    Inventory :=
  ⟨assign (index inv.slots slotId).2 slotId ⟨p, quantity⟩⟩

/-- The method `Inventory::hasStock`:
`return slots.count(slotId) && slots[slotId].quantity > 0;`. -/
def Inventory.hasStock (inv : Inventory) (slotId : Int) : Bool × Inventory :=
  if count inv.slots slotId ≠ 0 then
    (decide ((index inv.slots slotId).1.quantity > 0), ⟨(index inv.slots slotId).2⟩)
  else (false, inv)

/-- The method `Inventory::getProduct`: throws `runtime_error("Invalid slot")`
when `slots.count(slotId)` is zero, else returns `slots[slotId].product`. -/
def Inventory.getProduct (inv : Inventory) (slotId : Int) : Except String (Product × Inventory) :=
  if count inv.slots slotId = 0 then .error "Invalid slot"
  else .ok ((index inv.slots slotId).1.product, ⟨(index inv.slots slotId).2⟩)

/-- The method `Inventory::consumeOne`:
`if (!hasStock(slotId)) return false; slots[slotId].quantity--; return true;`. -/
def Inventory.consumeOne (inv : Inventory) (slotId : Int) : Bool × Inventory :=
  if (inv.hasStock slotId).1 = false then (false, (inv.hasStock slotId).2)
  else
    (true,
      ⟨assign (index (inv.hasStock slotId).2.slots slotId).2 slotId
        { (index (inv.hasStock slotId).2.slots slotId).1 with
          quantity := (index (inv.hasStock slotId).2.slots slotId).1.quantity - 1 }⟩)

/-- The method `Inventory::getQuantity`:
`if (!slots.count(slotId)) return 0; return slots[slotId].quantity;`. -/
def Inventory.getQuantity (inv : Inventory) (slotId : Int) : Int × Inventory :=
  if count inv.slots slotId = 0 then (0, inv)
  else ((index inv.slots slotId).1.quantity, ⟨(index inv.slots slotId).2⟩)

/-! ## The machine, the console and the payment strategies -/

/-- The class `VendingMachine`: its `inventory` member (`paymentService` has
no data members). -/
structure VendingMachine where
  inventory : Inventory

/-- Everything the program can reach globally: the singleton returned by
`VendingMachine::instance()` and what has been written to `std::cout`. -/
structure World where
  machine : VendingMachine
  cout : List Output

/-- A direct `cout << a << b << ...;` statement. -/
def World.print (w : World) (pieces : List Piece) : World :=
  { w with cout := w.cout ++ [Output.text pieces] }

/-- The method `Logger::info`: `cout << "[INFO] " << msg << endl;`. -/
def Logger.info (w : World) (msg : String) : World :=
  { w with cout := w.cout ++ [Output.info msg] }

/-- An object of a class derived from `PaymentStrategy`, in its current state:
what its overrides of the pure virtual `name()` and `pay(amount)` do. Both
are arbitrary user code, taken to return normally; on the way they may write
to the console and call the public methods of `VendingMachine::instance()`,
so each maps a world to a result and a world. A strategy object with state
of its own is covered by passing, at each call, the functions it implements
in its state at that time. -/
structure PaymentStrategy where
  name : World → String × World
  pay : Float → World → Bool × World

/-- The class `CashPayment`. -/
def CashPayment : PaymentStrategy where
  name := fun w => ("Cash", w)
  pay := fun amount w => (true, Logger.info w ("Cash payment of " ++ to_string_double amount))

/-- The class `CardPayment`. -/
def CardPayment : PaymentStrategy where
  name := fun w => ("Card", w)
  pay := fun amount w => (true, Logger.info w ("Card payment of " ++ to_string_double amount))

/-- The method `PaymentService::processPayment`: the message is built first,
which runs `strategy.name()`; then it is logged; then `strategy.pay(amount)`
runs and its result is returned. -/
def PaymentService.processPayment (strategy : PaymentStrategy) (amount : Float) (w : World) :
    Bool × World :=
  strategy.pay amount
    (Logger.info (strategy.name w).2
      ("Using " ++ (strategy.name w).1 ++ " to pay Rs " ++ to_string_double amount))

/-- The same world with the machine's inventory replaced. -/
def World.withInventory (w : World) (inv : Inventory) : World :=
  { w with machine := ⟨inv⟩ }

/-- The method `VendingMachine::loadProduct`. -/
def VendingMachine.loadProduct (w : World) (slotId : Int) (p : Product) (quantity : Int) :
    World :=
  Logger.info (w.withInventory (w.machine.inventory.addSlot slotId p quantity))
    ("Loaded " ++ p.name ++ " in slot " ++ to_string_int slotId)

/-- One iteration of the loop of `VendingMachine::displayItems`. -/
def VendingMachine.displayItems.body (w : World) (i : Int) : Except String World :=
  if (w.machine.inventory.getQuantity i).1 > 0 then
    match (w.machine.inventory.getQuantity i).2.getProduct i with
    | .error e => .error e
    | .ok (p, inv) =>
      .ok ((w.withInventory inv).print
        [.str "Slot ", .num i, .str ": ", .str p.name, .str " (Rs ", .dbl p.price,
          .str "), Qty: ", .num (w.machine.inventory.getQuantity i).1, .str "\n"])
  else .ok (w.withInventory (w.machine.inventory.getQuantity i).2)

/-- The method `VendingMachine::displayItems`: the loop runs `i` over 1..10. -/
def VendingMachine.displayItems (w : World) : Except String World :=
  (List.range' 1 10).foldlM (fun (acc : World) (i : Nat) => VendingMachine.displayItems.body acc i)
    (Logger.info w "Available items:")

/-- The method `VendingMachine::buy`. -/
def VendingMachine.buy (w : World) (slotId : Int) (strategy : PaymentStrategy) :
    Except String (Bool × World) :=
  if (w.machine.inventory.hasStock slotId).1 = false then
    .ok (false,
      (w.withInventory (w.machine.inventory.hasStock slotId).2).print
        [.str "Item not available\n"])
  else
    match (w.machine.inventory.hasStock slotId).2.getProduct slotId with
    | .error e => .error e
    | .ok (prod, inv) =>
      let paid := PaymentService.processPayment strategy prod.price
        ((w.withInventory inv).print
          [.str "Selected: ", .str prod.name, .str " (Rs ", .dbl prod.price, .str ")\n"])
      if paid.1 = false then
        .ok (false, paid.2.print [.str "Payment failed.\n"])
      else
        .ok (true,
          (paid.2.withInventory (paid.2.machine.inventory.consumeOne slotId).2).print
            [.str "Dispensing ", .str prod.name, .str "\n"])

/-- The state of the process before `main` has loaded anything: an empty
inventory and nothing written. -/
def World.fresh : World := ⟨⟨⟨fun _ => none⟩⟩, []⟩

/-- What `buy` returned and the world it left, for a call that completed
(the unreachable error case falls back to `false` and the given world). -/
def VendingMachine.buy.outcome (w : World) (slotId : Int) (strategy : PaymentStrategy) :
    Bool × World :=
  match VendingMachine.buy w slotId strategy with
  | .ok r => r
  | .error _ => (false, w)

/-- A payment strategy whose `name` and `pay` leave the machine's inventory as
they found it (they may still write to the console). -/
def PaymentStrategy.keepsInventory (m : PaymentStrategy) : Prop :=
  (∀ w : World, (m.name w).2.machine.inventory = w.machine.inventory) ∧
    ∀ (amount : Float) (w : World), (m.pay amount w).2.machine.inventory = w.machine.inventory

/-- A payment strategy whose `name` and `pay` leave `getQuantity(t)` as they
found it for every slot id `t` (as does any strategy that does not modify the
inventory). -/
def PaymentStrategy.keepsQuantities (m : PaymentStrategy) : Prop :=
  (∀ (w : World) (t : Int),
      ((m.name w).2.machine.inventory.getQuantity t).1 = (w.machine.inventory.getQuantity t).1) ∧
    ∀ (amount : Float) (w : World) (t : Int),
      ((m.pay amount w).2.machine.inventory.getQuantity t).1
        = (w.machine.inventory.getQuantity t).1

/-- Every stored slot has a quantity that is not negative. -/
def Inventory.nonNegative (inv : Inventory) : Prop :=
  ∀ (k : Int) (sl : Slot), inv.slots k = some sl → 0 ≤ sl.quantity

/-- A payment strategy that makes no negative load: run on a machine whose
stored quantities are all non-negative, its `name` and its `pay` leave a
machine whose stored quantities are all non-negative. -/
def PaymentStrategy.keepsNonNegative (m : PaymentStrategy) : Prop :=
  (∀ w : World, w.machine.inventory.nonNegative → (m.name w).2.machine.inventory.nonNegative) ∧
    ∀ (amount : Float) (w : World),
      w.machine.inventory.nonNegative → (m.pay amount w).2.machine.inventory.nonNegative

/-- The product `Product(101, "Chips", 30.0)` that `main` loads. -/
def chips : Product := ⟨101, "Chips", 30.0⟩

/-- The machine after `loadProduct(1, Product(101, "Chips", 30.0), 5)`. -/
def scenarioA : World := VendingMachine.loadProduct World.fresh 1 chips 5

/-- A strategy whose `pay` calls
`VendingMachine::instance().loadProduct(1, Product(101, "Chips", 30.0), 0)`
and then returns `verdict`. -/
def reloadingPayment (verdict : Bool) : PaymentStrategy where
  name := fun w => ("Reloading", w)
  pay := fun _ w => (verdict, VendingMachine.loadProduct w 1 chips 0)

/-- A strategy that always declines and does nothing else (the always-failing
stub of the test scenarios). -/
def decliningPayment : PaymentStrategy where
  name := fun w => ("Declined", w)
  pay := fun _ w => (false, w)

/-- A strategy whose `name` calls
`VendingMachine::instance().loadProduct(1, Product(101, "Chips", 30.0), 0)`
before returning its text, and whose `pay` does nothing but return true. -/
def reloadingName : PaymentStrategy where
  name := fun w => ("Reloading", VendingMachine.loadProduct w 1 chips 0)
  pay := fun _ w => (true, w)

/-! ## Sequences of calls on the machine -/

/-- One call on the machine's public interface. -/
inductive Call where
  | loadProduct (slotId : Int) (p : Product) (quantity : Int)
  | buy (slotId : Int) (strategy : PaymentStrategy)

/-- Executes one call; an exception thrown by the call is propagated. -/
def Call.exec (w : World) : Call → Except String World
  | .loadProduct slotId p quantity => .ok (VendingMachine.loadProduct w slotId p quantity)
  | .buy slotId strategy =>
    match VendingMachine.buy w slotId strategy with
    | .ok r => .ok r.2
    | .error e => .error e

/-- Executes the calls from left to right. -/
def run (w : World) (calls : List Call) : Except String World :=
  calls.foldlM Call.exec w

/-- A call that cannot introduce a negative quantity: a load of a quantity
that is not negative, or a purchase with a strategy that makes no negative
load. -/
def Call.admissible : Call → Prop
  | .loadProduct _ _ quantity => 0 ≤ quantity
  | .buy _ strategy => strategy.keepsNonNegative

/-! ## Observing the calls of `pay` -/

/-- A strategy whose `pay` does `cout << amount;` and returns `verdict`: each
call leaves one mark on the console that nothing else in the program writes. -/
def markingPayment (verdict : Bool) : PaymentStrategy where
  name := fun w => ("Marking", w)
  pay := fun amount w => (verdict, w.print [.dbl amount])

/-- Recognises a mark left by `markingPayment`. -/
def isPayMark : Output → Bool
  | .text [.dbl _] => true
  | _ => false

/-- The number of marks on the console, that is, of calls of the `pay` of a
`markingPayment`. -/
def payMarks (out : List Output) : Nat := out.countP isPayMark

/-- A strategy whose `pay` calls
`VendingMachine::instance().loadProduct(slotId, p, quantity)` and then returns
`verdict`. -/
def loadingPayment (slotId : Int) (p : Product) (quantity : Int) (verdict : Bool) :
    PaymentStrategy where
  name := fun w => ("Loading", w)
  pay := fun _ w => (verdict, VendingMachine.loadProduct w slotId p quantity)

/-- A strategy whose `pay` makes the nested call
`VendingMachine::instance().buy(slotId, inner)` and returns its result. -/
def buyingPayment (slotId : Int) (inner : PaymentStrategy) : PaymentStrategy where
  name := fun w => ("Buying", w)
  pay := fun _ w => VendingMachine.buy.outcome w slotId inner

/-- The results of `k` consecutive `buy(slotId, strategy)` calls, in order,
and the world they leave. -/
def buyTimes (w : World) (slotId : Int) (strategy : PaymentStrategy) :
    Nat → List Bool × World
  | 0 => ([], w)
  | k + 1 =>
    match VendingMachine.buy w slotId strategy with
    | .ok r => (r.1 :: (buyTimes r.2 slotId strategy k).1, (buyTimes r.2 slotId strategy k).2)
    | .error _ => ([], w)

/-! ## The listing, as the specification describes it -/

/-- The console line that `displayItems` writes for one listed item
(slot id, product, quantity). -/
def itemLine (item : Int × Product × Int) : Output :=
  .text [.str "Slot ", .num item.1, .str ": ", .str item.2.1.name, .str " (Rs ",
    .dbl item.2.1.price, .str "), Qty: ", .num item.2.2, .str "\n"]

/-- The items of the specification's `listAvailable`, restricted to the slot
ids of `ids` taken in the given order: those whose `getQuantity` is greater
than 0, each with the product and the quantity stored in the slot. -/
def availableAmong (ids : List Nat) (inv : Inventory) : List (Int × Product × Int) :=
  ids.filterMap (fun (n : Nat) =>
    if 0 < (inv.getQuantity n).1 then
      (inv.slots n).map (fun sl => ((n : Int), sl.product, sl.quantity))
    else none)

/-- The specification's `listAvailable`: the available items among the slot
ids 1, 2, ..., 10 in ascending order. -/
def listAvailable (inv : Inventory) : List (Int × Product × Int) :=
  availableAmong (List.range' 1 10) inv

/-! ## Basic facts about the slot table and the inventory queries -/

theorem count_eq_zero_iff (m : Int → Option Slot) (k : Int) : count m k = 0 ↔ m k = none := by
  unfold count
  cases h : m k <;> simp

theorem index_of_some {m : Int → Option Slot} {k : Int} {v : Slot} (h : m k = some v) :
    index m k = (v, m) := by
  simp [index, h]

theorem index_of_none {m : Int → Option Slot} {k : Int} (h : m k = none) :
    index m k = (Slot.zero, assign m k Slot.zero) := by
  simp [index, h]

theorem assign_same (m : Int → Option Slot) (k : Int) (v : Slot) : assign m k v k = some v := by
  simp [assign]

theorem assign_other (m : Int → Option Slot) {k t : Int} (v : Slot) (h : t ≠ k) :
    assign m k v t = m t := by
  simp [assign, h]

theorem assign_assign (m : Int → Option Slot) (k : Int) (u v : Slot) :
    assign (assign m k u) k v = assign m k v := by
  funext j
  by_cases h : j = k <;> simp [assign, h]

theorem addSlot_slots (inv : Inventory) (s : Int) (p : Product) (q : Int) :
    (inv.addSlot s p q).slots = assign inv.slots s ⟨p, q⟩ := by
  cases h : inv.slots s with
  | none => simp [Inventory.addSlot, index_of_none h, assign_assign]
  | some v => simp [Inventory.addSlot, index_of_some h]

theorem hasStock_of_none {inv : Inventory} {s : Int} (h : inv.slots s = none) :
    inv.hasStock s = (false, inv) := by
  simp [Inventory.hasStock, count, h]

theorem hasStock_of_some {inv : Inventory} {s : Int} {sl : Slot} (h : inv.slots s = some sl) :
    inv.hasStock s = (decide (sl.quantity > 0), inv) := by
  simp [Inventory.hasStock, count, h, index_of_some h]

theorem hasStock_snd (inv : Inventory) (s : Int) : (inv.hasStock s).2 = inv := by
  cases h : inv.slots s with
  | none => rw [hasStock_of_none h]
  | some v => rw [hasStock_of_some h]

theorem hasStock_true_iff (inv : Inventory) (s : Int) :
    (inv.hasStock s).1 = true ↔ ∃ sl, inv.slots s = some sl ∧ 0 < sl.quantity := by
  cases h : inv.slots s with
  | none => simp [hasStock_of_none h]
  | some v => simp [hasStock_of_some h]

theorem getQuantity_of_none {inv : Inventory} {s : Int} (h : inv.slots s = none) :
    inv.getQuantity s = (0, inv) := by
  simp [Inventory.getQuantity, count, h]

theorem getQuantity_of_some {inv : Inventory} {s : Int} {sl : Slot} (h : inv.slots s = some sl) :
    inv.getQuantity s = (sl.quantity, inv) := by
  simp [Inventory.getQuantity, count, h, index_of_some h]

theorem getQuantity_snd (inv : Inventory) (s : Int) : (inv.getQuantity s).2 = inv := by
  cases h : inv.slots s with
  | none => rw [getQuantity_of_none h]
  | some v => rw [getQuantity_of_some h]

theorem getProduct_of_none {inv : Inventory} {s : Int} (h : inv.slots s = none) :
    inv.getProduct s = .error "Invalid slot" := by
  simp [Inventory.getProduct, count, h]

theorem getProduct_of_some {inv : Inventory} {s : Int} {sl : Slot} (h : inv.slots s = some sl) :
    inv.getProduct s = .ok (sl.product, inv) := by
  simp [Inventory.getProduct, count, h, index_of_some h]

theorem consumeOne_of_none {inv : Inventory} {s : Int} (h : inv.slots s = none) :
    inv.consumeOne s = (false, inv) := by
  simp [Inventory.consumeOne, hasStock_of_none h]

theorem consumeOne_of_empty {inv : Inventory} {s : Int} {sl : Slot} (h : inv.slots s = some sl)
    (hq : sl.quantity ≤ 0) : inv.consumeOne s = (false, inv) := by
  simp [Inventory.consumeOne, hasStock_of_some h, hq]

theorem consumeOne_of_stock {inv : Inventory} {s : Int} {sl : Slot} (h : inv.slots s = some sl)
    (hq : 0 < sl.quantity) :
    inv.consumeOne s = (true, ⟨assign inv.slots s ⟨sl.product, sl.quantity - 1⟩⟩) := by
  simp [Inventory.consumeOne, hasStock_of_some h, hq, index_of_some h]

theorem withInventory_self (w : World) : w.withInventory w.machine.inventory = w := rfl

theorem buy_of_no_stock {w : World} {s : Int} (m : PaymentStrategy)
    (h : (w.machine.inventory.hasStock s).1 = false) :
    VendingMachine.buy w s m = .ok (false, w.print [.str "Item not available\n"]) := by
  simp [VendingMachine.buy, h, hasStock_snd, withInventory_self]

theorem buy_of_stock {w : World} {s : Int} {sl : Slot} (m : PaymentStrategy)
    (h : w.machine.inventory.slots s = some sl) (hq : 0 < sl.quantity) :
    VendingMachine.buy w s m =
      if (PaymentService.processPayment m sl.product.price
            (w.print [.str "Selected: ", .str sl.product.name, .str " (Rs ",
              .dbl sl.product.price, .str ")\n"])).1 = false then
        .ok (false,
          (PaymentService.processPayment m sl.product.price
            (w.print [.str "Selected: ", .str sl.product.name, .str " (Rs ",
              .dbl sl.product.price, .str ")\n"])).2.print [.str "Payment failed.\n"])
      else
        .ok (true,
          ((PaymentService.processPayment m sl.product.price
            (w.print [.str "Selected: ", .str sl.product.name, .str " (Rs ",
              .dbl sl.product.price, .str ")\n"])).2.withInventory
            ((PaymentService.processPayment m sl.product.price
              (w.print [.str "Selected: ", .str sl.product.name, .str " (Rs ",
                .dbl sl.product.price, .str ")\n"])).2.machine.inventory.consumeOne s).2).print
            [.str "Dispensing ", .str sl.product.name, .str "\n"]) := by
  simp [VendingMachine.buy, hasStock_of_some h, hq, getProduct_of_some h, withInventory_self]

theorem cash_keepsInventory : CashPayment.keepsInventory := ⟨fun _ => rfl, fun _ _ => rfl⟩

theorem processPayment_inventory {m : PaymentStrategy} (hm : m.keepsInventory) (a : Float)
    (w : World) :
    (PaymentService.processPayment m a w).2.machine.inventory = w.machine.inventory := by
  unfold PaymentService.processPayment
  rw [hm.2]
  exact hm.1 w

theorem getQuantity_fst_congr {inv inv2 : Inventory} {t : Int}
    (h : inv2.slots t = inv.slots t) : (inv2.getQuantity t).1 = (inv.getQuantity t).1 := by
  cases ht : inv.slots t with
  | none => rw [getQuantity_of_none ht, getQuantity_of_none (h.trans ht)]
  | some v => rw [getQuantity_of_some ht, getQuantity_of_some (h.trans ht)]

theorem consumeOne_slots_other (inv : Inventory) {s t : Int} (hts : t ≠ s) :
    (inv.consumeOne s).2.slots t = inv.slots t := by
  cases h : inv.slots s with
  | none => rw [consumeOne_of_none h]
  | some sl =>
    by_cases hq : 0 < sl.quantity
    · rw [consumeOne_of_stock h hq]
      exact assign_other _ _ hts
    · rw [consumeOne_of_empty h (not_lt.1 hq)]

theorem consumeOne_getQuantity_other (inv : Inventory) {s t : Int} (hts : t ≠ s) :
    ((inv.consumeOne s).2.getQuantity t).1 = (inv.getQuantity t).1 :=
  getQuantity_fst_congr (consumeOne_slots_other inv hts)

theorem consumeOne_getQuantity_same {inv : Inventory} {s : Int} {sl : Slot}
    (h : inv.slots s = some sl) (hq : 0 < sl.quantity) :
    ((inv.consumeOne s).2.getQuantity s).1 = (inv.getQuantity s).1 - 1 := by
  rw [consumeOne_of_stock h hq, getQuantity_of_some (assign_same _ _ _), getQuantity_of_some h]

/-- The inventory after a completed `buy` whose strategy keeps the inventory:
one `consumeOne` when it returned true, untouched when it returned false. -/
theorem buy_inventory_of_keeps {w : World} {s : Int} {m : PaymentStrategy} {r : Bool × World}
    (hm : m.keepsInventory) (hb : VendingMachine.buy w s m = .ok r) :
    r.2.machine.inventory =
      if r.1 = true then (w.machine.inventory.consumeOne s).2 else w.machine.inventory := by
  by_cases hs : (w.machine.inventory.hasStock s).1 = true
  · obtain ⟨sl, hsl, hq⟩ := (hasStock_true_iff _ _).1 hs
    rw [buy_of_stock m hsl hq] at hb
    have hinv := processPayment_inventory hm sl.product.price
      (w.print [.str "Selected: ", .str sl.product.name, .str " (Rs ",
        .dbl sl.product.price, .str ")\n"])
    generalize PaymentService.processPayment m sl.product.price
      (w.print [.str "Selected: ", .str sl.product.name, .str " (Rs ",
        .dbl sl.product.price, .str ")\n"]) = paid at hb hinv
    split at hb
    · cases hb
      exact hinv
    · cases hb
      show (paid.2.machine.inventory.consumeOne s).2 = _
      rw [hinv]
      rfl
  · have hs2 : (w.machine.inventory.hasStock s).1 = false := by simpa using hs
    rw [buy_of_no_stock m hs2] at hb
    cases hb
    rfl

theorem cash_keepsQuantities : CashPayment.keepsQuantities :=
  ⟨fun _ _ => rfl, fun _ _ _ => rfl⟩

theorem declining_keepsQuantities : decliningPayment.keepsQuantities :=
  ⟨fun _ _ => rfl, fun _ _ _ => rfl⟩

theorem keepsQuantities_of_keepsInventory {m : PaymentStrategy} (hm : m.keepsInventory) :
    m.keepsQuantities :=
  ⟨fun w t => by rw [hm.1 w], fun a w t => by rw [hm.2 a w]⟩

theorem processPayment_quantities {m : PaymentStrategy} (hm : m.keepsQuantities) (a : Float)
    (w : World) (t : Int) :
    ((PaymentService.processPayment m a w).2.machine.inventory.getQuantity t).1
      = (w.machine.inventory.getQuantity t).1 := by
  unfold PaymentService.processPayment
  rw [hm.2]
  exact hm.1 w t

theorem slot_of_getQuantity_pos {inv : Inventory} {t : Int} (h : 0 < (inv.getQuantity t).1) :
    ∃ sl, inv.slots t = some sl ∧ sl.quantity = (inv.getQuantity t).1 := by
  cases ht : inv.slots t with
  | none =>
    rw [getQuantity_of_none ht] at h
    exact absurd h (lt_irrefl _)
  | some v =>
    refine ⟨v, rfl, ?_⟩
    rw [getQuantity_of_some ht]

/-- The quantities after a completed `buy` whose strategy keeps the
quantities: slot `s` is one lower when `buy` returned true, and everything
else is as before. -/
theorem buy_quantities_of_keeps {w : World} {s : Int} {m : PaymentStrategy} {r : Bool × World}
    (hm : m.keepsQuantities) (hb : VendingMachine.buy w s m = .ok r) (t : Int) :
    (r.2.machine.inventory.getQuantity t).1 =
      if r.1 = true ∧ t = s then (w.machine.inventory.getQuantity t).1 - 1
      else (w.machine.inventory.getQuantity t).1 := by
  by_cases hs : (w.machine.inventory.hasStock s).1 = true
  · obtain ⟨sl, hsl, hq⟩ := (hasStock_true_iff _ _).1 hs
    rw [buy_of_stock m hsl hq] at hb
    have hpaid := processPayment_quantities hm sl.product.price
      (w.print [.str "Selected: ", .str sl.product.name, .str " (Rs ",
        .dbl sl.product.price, .str ")\n"])
    generalize PaymentService.processPayment m sl.product.price
      (w.print [.str "Selected: ", .str sl.product.name, .str " (Rs ",
        .dbl sl.product.price, .str ")\n"]) = paid at hb hpaid
    have hpaid2 : ∀ u, (paid.2.machine.inventory.getQuantity u).1
        = (w.machine.inventory.getQuantity u).1 := hpaid
    split at hb
    · cases hb
      rw [if_neg (by simp)]
      exact hpaid2 t
    · cases hb
      show ((paid.2.machine.inventory.consumeOne s).2.getQuantity t).1 = _
      by_cases hts : t = s
      · subst hts
        rw [if_pos ⟨rfl, rfl⟩]
        have hpos : 0 < (paid.2.machine.inventory.getQuantity t).1 := by
          rw [hpaid2 t, getQuantity_of_some hsl]
          exact hq
        obtain ⟨sl2, hsl2, hq2⟩ := slot_of_getQuantity_pos hpos
        rw [consumeOne_getQuantity_same hsl2 (hq2 ▸ hpos), hpaid2 t]
      · rw [if_neg (fun h => hts h.2), consumeOne_getQuantity_other _ hts]
        exact hpaid2 t
  · have hs2 : (w.machine.inventory.hasStock s).1 = false := by simpa using hs
    rw [buy_of_no_stock m hs2] at hb
    cases hb
    rw [if_neg (by simp)]
    rfl

/-! ## C1 to C3: the result of `buy` and its effect on the quantities -/

/-- C1: `buy(s, m)` always returns, and it returns true if and only if
`hasStock(s)` held before the call and `m.pay`, invoked (in the state in which
`buy` reaches it: after the "Selected" line, the run of `m.name()` and the log
line) with the price of the product stored in slot `s`, returned true. -/
theorem buy_true_iff (w : World) (s : Int) (m : PaymentStrategy) :
    ∃ r, VendingMachine.buy w s m = .ok r ∧
      (r.1 = true ↔
        (w.machine.inventory.hasStock s).1 = true ∧
        ∃ sl, w.machine.inventory.slots s = some sl ∧
          (m.pay sl.product.price
            (Logger.info
              (m.name (w.print [.str "Selected: ", .str sl.product.name, .str " (Rs ",
                .dbl sl.product.price, .str ")\n"])).2
              ("Using " ++
                (m.name (w.print [.str "Selected: ", .str sl.product.name, .str " (Rs ",
                  .dbl sl.product.price, .str ")\n"])).1 ++
                " to pay Rs " ++ to_string_double sl.product.price))).1
            = true) := by
  by_cases hs : (w.machine.inventory.hasStock s).1 = true
  · obtain ⟨sl, hsl, hq⟩ := (hasStock_true_iff _ _).1 hs
    rw [buy_of_stock m hsl hq]
    split
    · next hp =>
      refine ⟨_, rfl, ?_⟩
      constructor
      · intro h
        cases h
      · rintro ⟨_, sl2, hsl2, hpay⟩
        rw [hsl] at hsl2
        cases hsl2
        rw [PaymentService.processPayment, hpay] at hp
        cases hp
    · next hp =>
      refine ⟨_, rfl, ?_⟩
      constructor
      · intro _
        refine ⟨hs, sl, hsl, ?_⟩
        simpa [PaymentService.processPayment] using hp
      · intro _
        rfl
  · have hs2 : (w.machine.inventory.hasStock s).1 = false := by simpa using hs
    rw [buy_of_no_stock m hs2]
    refine ⟨_, rfl, ?_⟩
    constructor
    · intro h
      cases h
    · rintro ⟨h, _⟩
      exact absurd h hs

/-- C2, as stated, fails: with slot 1 loaded with 5 units, a strategy whose
`pay` reloads slot 1 with quantity 0 and returns true makes `buy(1, m)` return
true while `getQuantity(1)` goes from 5 to 0 instead of 4. -/
theorem buy_success_quantity_counterexample :
    VendingMachine.buy scenarioA 1 (reloadingPayment true)
        = .ok (VendingMachine.buy.outcome scenarioA 1 (reloadingPayment true)) ∧
      (VendingMachine.buy.outcome scenarioA 1 (reloadingPayment true)).1 = true ∧
      (scenarioA.machine.inventory.getQuantity 1).1 = 5 ∧
      ((VendingMachine.buy.outcome scenarioA 1
          (reloadingPayment true)).2.machine.inventory.getQuantity 1).1 = 0 := by
  refine ⟨rfl, rfl, ?_, ?_⟩ <;> decide

/-- C2, amended: when `m.name` and `m.pay` themselves leave every slot's
quantity as they found it (in particular when they do not modify the
inventory), a `buy(s, m)` that returns true decreases `getQuantity(s)` by
exactly 1 and leaves `getQuantity(t)` unchanged for every other slot id `t`. -/
theorem buy_success_quantity (w : World) (s : Int) (m : PaymentStrategy) (r : Bool × World)
    (hm : m.keepsQuantities) (hb : VendingMachine.buy w s m = .ok r) (ht : r.1 = true) :
    (r.2.machine.inventory.getQuantity s).1 = (w.machine.inventory.getQuantity s).1 - 1 ∧
      ∀ t, t ≠ s →
        (r.2.machine.inventory.getQuantity t).1 = (w.machine.inventory.getQuantity t).1 := by
  refine ⟨?_, fun t hts => ?_⟩
  · rw [buy_quantities_of_keeps hm hb s, if_pos ⟨ht, rfl⟩]
  · rw [buy_quantities_of_keeps hm hb t, if_neg (fun h => hts h.2)]

/-- Witness of the amended C2 (Scenario A): after
`loadProduct(1, Product(101, "Chips", 30.0), 5)`, `buy(1, CashPayment)` returns
true and `getQuantity(1)` is 4. -/
theorem buy_success_quantity_witness :
    CashPayment.keepsQuantities ∧
      VendingMachine.buy scenarioA 1 CashPayment
        = .ok (VendingMachine.buy.outcome scenarioA 1 CashPayment) ∧
      (VendingMachine.buy.outcome scenarioA 1 CashPayment).1 = true ∧
      ((VendingMachine.buy.outcome scenarioA 1 CashPayment).2.machine.inventory.getQuantity 1).1
        = 4 ∧
      (((VendingMachine.buy.outcome scenarioA 1 CashPayment).2.machine.inventory.getQuantity 1).1
          = (scenarioA.machine.inventory.getQuantity 1).1 - 1 ∧
        ∀ t, t ≠ 1 →
          ((VendingMachine.buy.outcome scenarioA 1
              CashPayment).2.machine.inventory.getQuantity t).1
            = (scenarioA.machine.inventory.getQuantity t).1) :=
  ⟨cash_keepsQuantities, rfl, rfl, by decide,
    buy_success_quantity scenarioA 1 CashPayment _ cash_keepsQuantities rfl rfl⟩

/-- C3, as stated, fails: with slot 1 loaded with 5 units, a strategy whose
`pay` reloads slot 1 with quantity 0 and returns false makes `buy(1, m)` return
false while `getQuantity(1)` goes from 5 to 0. -/
theorem buy_failure_quantity_counterexample :
    VendingMachine.buy scenarioA 1 (reloadingPayment false)
        = .ok (VendingMachine.buy.outcome scenarioA 1 (reloadingPayment false)) ∧
      (VendingMachine.buy.outcome scenarioA 1 (reloadingPayment false)).1 = false ∧
      (scenarioA.machine.inventory.getQuantity 1).1 = 5 ∧
      ((VendingMachine.buy.outcome scenarioA 1
          (reloadingPayment false)).2.machine.inventory.getQuantity 1).1 = 0 := by
  refine ⟨rfl, rfl, ?_, ?_⟩ <;> decide

/-- C3, amended: if `buy(s, m)` returns false, because slot `s` had no stock
(whatever `m` is) or because an `m` whose `name` and `pay` themselves leave
every slot's quantity as they found it (in particular an `m` that does not
modify the inventory) returned false, then `getQuantity(t)` is the same after
the call as before it for every slot id `t`. -/
theorem buy_failure_quantity (w : World) (s : Int) (m : PaymentStrategy) (r : Bool × World)
    (hm : (w.machine.inventory.hasStock s).1 = true → m.keepsQuantities)
    (hb : VendingMachine.buy w s m = .ok r) (hf : r.1 = false) :
    ∀ t, (r.2.machine.inventory.getQuantity t).1 = (w.machine.inventory.getQuantity t).1 := by
  intro t
  by_cases hs : (w.machine.inventory.hasStock s).1 = true
  · rw [buy_quantities_of_keeps (hm hs) hb t, if_neg (by simp [hf])]
  · have hs2 : (w.machine.inventory.hasStock s).1 = false := by simpa using hs
    rw [buy_of_no_stock m hs2] at hb
    cases hb
    rfl

/-- Witness of the amended C3 (Scenario D): with slot 1 loaded with 5 units,
the always-failing strategy makes `buy(1, m)` return false and every quantity
stays as it was. -/
theorem buy_failure_quantity_witness :
    ((scenarioA.machine.inventory.hasStock 1).1 = true → decliningPayment.keepsQuantities) ∧
      VendingMachine.buy scenarioA 1 decliningPayment
        = .ok (VendingMachine.buy.outcome scenarioA 1 decliningPayment) ∧
      (VendingMachine.buy.outcome scenarioA 1 decliningPayment).1 = false ∧
      ((VendingMachine.buy.outcome scenarioA 1
          decliningPayment).2.machine.inventory.getQuantity 1).1 = 5 ∧
      ∀ t, ((VendingMachine.buy.outcome scenarioA 1
              decliningPayment).2.machine.inventory.getQuantity t).1
            = (scenarioA.machine.inventory.getQuantity t).1 :=
  ⟨fun _ => declining_keepsQuantities, rfl, rfl, by decide,
    buy_failure_quantity scenarioA 1 decliningPayment _ (fun _ => declining_keepsQuantities)
      rfl rfl⟩

/-! ## C4: non-negative quantities along sequences of calls -/

theorem buy_ok (w : World) (s : Int) (m : PaymentStrategy) :
    ∃ r, VendingMachine.buy w s m = .ok r := by
  by_cases hs : (w.machine.inventory.hasStock s).1 = true
  · obtain ⟨sl, hsl, hq⟩ := (hasStock_true_iff _ _).1 hs
    rw [buy_of_stock m hsl hq]
    split <;> exact ⟨_, rfl⟩
  · have hs2 : (w.machine.inventory.hasStock s).1 = false := by simpa using hs
    rw [buy_of_no_stock m hs2]
    exact ⟨_, rfl⟩

theorem fresh_nonNegative : World.fresh.machine.inventory.nonNegative := by
  intro k sl h
  cases h

theorem addSlot_nonNegative {inv : Inventory} (h : inv.nonNegative) (s : Int) (p : Product)
    {q : Int} (hq : 0 ≤ q) : (inv.addSlot s p q).nonNegative := by
  intro k sl hk
  rw [addSlot_slots] at hk
  by_cases hks : k = s
  · subst hks
    rw [assign_same] at hk
    cases hk
    exact hq
  · rw [assign_other _ _ hks] at hk
    exact h k sl hk

theorem consumeOne_nonNegative {inv : Inventory} (h : inv.nonNegative) (s : Int) :
    (inv.consumeOne s).2.nonNegative := by
  cases hs : inv.slots s with
  | none => rw [consumeOne_of_none hs]; exact h
  | some v =>
    by_cases hq : 0 < v.quantity
    · rw [consumeOne_of_stock hs hq]
      intro k sl hk
      change assign inv.slots s _ k = some sl at hk
      by_cases hks : k = s
      · subst hks
        rw [assign_same] at hk
        cases hk
        show 0 ≤ v.quantity - 1
        omega
      · rw [assign_other _ _ hks] at hk
        exact h k sl hk
    · rw [consumeOne_of_empty hs (not_lt.1 hq)]
      exact h

theorem getQuantity_nonneg {inv : Inventory} (h : inv.nonNegative) (t : Int) :
    0 ≤ (inv.getQuantity t).1 := by
  cases ht : inv.slots t with
  | none => rw [getQuantity_of_none ht]
  | some v => rw [getQuantity_of_some ht]; exact h t v ht

theorem buy_nonNegative {w : World} {s : Int} {m : PaymentStrategy} {r : Bool × World}
    (hm : m.keepsNonNegative)
    (hw : w.machine.inventory.nonNegative) (hb : VendingMachine.buy w s m = .ok r) :
    r.2.machine.inventory.nonNegative := by
  by_cases hs : (w.machine.inventory.hasStock s).1 = true
  · obtain ⟨sl, hsl, hq⟩ := (hasStock_true_iff _ _).1 hs
    rw [buy_of_stock m hsl hq] at hb
    have hpaid : (PaymentService.processPayment m sl.product.price
        (w.print [.str "Selected: ", .str sl.product.name, .str " (Rs ",
          .dbl sl.product.price, .str ")\n"])).2.machine.inventory.nonNegative :=
      hm.2 _ _ (hm.1 _ hw)
    generalize PaymentService.processPayment m sl.product.price
      (w.print [.str "Selected: ", .str sl.product.name, .str " (Rs ",
        .dbl sl.product.price, .str ")\n"]) = paid at hb hpaid
    split at hb
    · cases hb
      exact hpaid
    · cases hb
      exact consumeOne_nonNegative hpaid s
  · have hs2 : (w.machine.inventory.hasStock s).1 = false := by simpa using hs
    rw [buy_of_no_stock m hs2] at hb
    cases hb
    exact hw

theorem cash_keepsNonNegative : CashPayment.keepsNonNegative :=
  ⟨fun _ hw => hw, fun _ _ hw => hw⟩

theorem card_keepsNonNegative : CardPayment.keepsNonNegative :=
  ⟨fun _ hw => hw, fun _ _ hw => hw⟩

/-- A strategy whose `pay` makes one load of a quantity that is not negative
makes no negative load. -/
theorem loadingPayment_keepsNonNegative (slotId : Int) (p : Product) {q : Int} (hq : 0 ≤ q)
    (verdict : Bool) : (loadingPayment slotId p q verdict).keepsNonNegative :=
  ⟨fun _ hw => hw, fun _ _ hw => addSlot_nonNegative hw slotId p hq⟩

/-- A strategy whose `pay` makes a nested purchase with a strategy that makes
no negative load makes no negative load itself. -/
theorem buyingPayment_keepsNonNegative (slotId : Int) {inner : PaymentStrategy}
    (hi : inner.keepsNonNegative) : (buyingPayment slotId inner).keepsNonNegative := by
  refine ⟨fun _ hw => hw, fun _ w hw => ?_⟩
  obtain ⟨r, hr⟩ := buy_ok w slotId inner
  show (VendingMachine.buy.outcome w slotId inner).2.machine.inventory.nonNegative
  unfold VendingMachine.buy.outcome
  rw [hr]
  exact buy_nonNegative hi hw hr

theorem exec_nonNegative {w : World} {c : Call} (hc : c.admissible)
    (hw : w.machine.inventory.nonNegative) :
    ∃ w2, c.exec w = .ok w2 ∧ w2.machine.inventory.nonNegative := by
  cases c with
  | loadProduct s p q => exact ⟨_, rfl, addSlot_nonNegative hw s p hc⟩
  | buy s m =>
    obtain ⟨r, hr⟩ := buy_ok w s m
    refine ⟨r.2, ?_, buy_nonNegative hc hw hr⟩
    simp [Call.exec, hr]

theorem run_nonNegative (calls : List Call) :
    ∀ w : World, (∀ c ∈ calls, c.admissible) → w.machine.inventory.nonNegative →
      ∃ w2, run w calls = .ok w2 ∧ w2.machine.inventory.nonNegative := by
  induction calls with
  | nil => intro w _ hw; exact ⟨w, rfl, hw⟩
  | cons c cs ih =>
    intro w hadm hw
    obtain ⟨w1, h1, hw1⟩ := exec_nonNegative (hadm c (List.mem_cons_self _ _)) hw
    obtain ⟨w2, h2, hw2⟩ := ih w1 (fun d hd => hadm d (List.mem_cons_of_mem _ hd)) hw1
    refine ⟨w2, ?_, hw2⟩
    unfold run at h2 ⊢
    rw [List.foldlM_cons, h1]
    exact h2

/-- C4, as stated, fails: on a fresh machine the single call
`loadProduct(1, Product(101, "Chips", 30.0), -5)` is accepted and leaves
`getQuantity(1) == -5`. -/
theorem quantity_nonneg_counterexample :
    ∃ w, run World.fresh [.loadProduct 1 chips (-5)] = .ok w ∧
      (w.machine.inventory.getQuantity 1).1 = -5 ∧ ¬ 0 ≤ (w.machine.inventory.getQuantity 1).1 :=
  ⟨_, rfl, by decide, by decide⟩

/-- C4, amended: starting from a fresh machine, every finite sequence of
`loadProduct` and `buy` calls in which each loaded quantity is at least 0 and
each payment strategy makes no negative load from its `name` or `pay` runs to
completion, and afterwards `getQuantity(id) >= 0` for every slot id. -/
theorem quantity_nonneg_after_calls (calls : List Call) (h : ∀ c ∈ calls, c.admissible) :
    ∃ w, run World.fresh calls = .ok w ∧ ∀ id, 0 ≤ (w.machine.inventory.getQuantity id).1 := by
  obtain ⟨w, hw, hnn⟩ := run_nonNegative calls World.fresh h fresh_nonNegative
  exact ⟨w, hw, fun id => getQuantity_nonneg hnn id⟩

/-- Witness of the amended C4: the calls of `main` that change the machine,
two loads and two purchases, after which every quantity is at least 0. -/
theorem quantity_nonneg_after_calls_witness :
    (∀ c ∈ [Call.loadProduct 1 chips 5, Call.loadProduct 2 ⟨102, "Coke", 50.0⟩ 3,
        Call.buy 1 CashPayment, Call.buy 2 CardPayment], c.admissible) ∧
      ∃ w, run World.fresh [Call.loadProduct 1 chips 5, Call.loadProduct 2 ⟨102, "Coke", 50.0⟩ 3,
          Call.buy 1 CashPayment, Call.buy 2 CardPayment] = .ok w ∧
        ∀ id, 0 ≤ (w.machine.inventory.getQuantity id).1 :=
  have hadm : ∀ c ∈ [Call.loadProduct 1 chips 5, Call.loadProduct 2 ⟨102, "Coke", 50.0⟩ 3,
      Call.buy 1 CashPayment, Call.buy 2 CardPayment], c.admissible := by
    intro c hc
    simp only [List.mem_cons, List.mem_singleton, List.not_mem_nil, or_false] at hc
    rcases hc with rfl | rfl | rfl | rfl
    · show (0 : Int) ≤ 5
      decide
    · show (0 : Int) ≤ 3
      decide
    · exact cash_keepsNonNegative
    · exact card_keepsNonNegative
  ⟨hadm, quantity_nonneg_after_calls _ hadm⟩

/-! ## C5 to C8: the inventory operations -/

/-- C5: `consumeOne(s)` returns true exactly when `hasStock(s)` held before;
when it returns true the entry at `s` keeps its product and has its quantity
decremented by exactly one while every other entry is untouched; when it
returns false the whole inventory is unchanged. It is a total function: it has
no failure path. -/
theorem consumeOne_spec (inv : Inventory) (s : Int) :
    (inv.consumeOne s).1 = (inv.hasStock s).1 ∧
      ((inv.consumeOne s).1 = true →
        ∃ sl, inv.slots s = some sl ∧
          (inv.consumeOne s).2.slots s = some ⟨sl.product, sl.quantity - 1⟩ ∧
          ((inv.consumeOne s).2.getQuantity s).1 = (inv.getQuantity s).1 - 1 ∧
          ∀ t, t ≠ s → (inv.consumeOne s).2.slots t = inv.slots t) ∧
      ((inv.consumeOne s).1 = false → (inv.consumeOne s).2 = inv) := by
  cases h : inv.slots s with
  | none =>
    rw [consumeOne_of_none h, hasStock_of_none h]
    exact ⟨rfl, fun hc => (by cases hc), fun _ => rfl⟩
  | some sl =>
    by_cases hq : 0 < sl.quantity
    · refine ⟨?_, ?_, ?_⟩
      · rw [consumeOne_of_stock h hq, hasStock_of_some h]
        simp [hq]
      · intro _
        refine ⟨sl, rfl, ?_, ?_, ?_⟩
        · rw [consumeOne_of_stock h hq]
          exact assign_same _ _ _
        · exact consumeOne_getQuantity_same h hq
        · intro t hts
          exact consumeOne_slots_other inv hts
      · intro hc
        rw [consumeOne_of_stock h hq] at hc
        cases hc
    · rw [consumeOne_of_empty h (not_lt.1 hq), hasStock_of_some h]
      refine ⟨?_, fun hc => (by cases hc), fun _ => rfl⟩
      simp [hq]

/-- C6: `getProduct(s)` throws `runtime_error("Invalid slot")` if and only if
no entry exists at `s`, and otherwise returns exactly the stored product
(whatever the entry's quantity, 0 included) without changing the inventory;
on a machine where slot 99 was never loaded, `getProduct(99)` throws. -/
theorem getProduct_spec (inv : Inventory) (s : Int) :
    ((∃ e, inv.getProduct s = .error e) ↔ inv.slots s = none) ∧
      (inv.slots s = none → inv.getProduct s = .error "Invalid slot") ∧
      (∀ sl, inv.slots s = some sl → inv.getProduct s = .ok (sl.product, inv)) ∧
      scenarioA.machine.inventory.getProduct 99 = .error "Invalid slot" := by
  refine ⟨?_, fun h => getProduct_of_none h, fun sl h => getProduct_of_some h, rfl⟩
  cases h : inv.slots s with
  | none => simp [getProduct_of_none h]
  | some sl => simp [getProduct_of_some h]

/-- C7: `hasStock(s)` returns true if and only if an entry exists at `s` and
its stored quantity is greater than 0; it has no failure path and leaves the
inventory unchanged; after loading slot 3 with quantity 0, `hasStock(3)` is
false. -/
theorem hasStock_spec (inv : Inventory) (s : Int) :
    ((inv.hasStock s).1 = true ↔ ∃ sl, inv.slots s = some sl ∧ 0 < sl.quantity) ∧
      (inv.hasStock s).2 = inv ∧
      ∀ (w : World) (p : Product),
        ((VendingMachine.loadProduct w 3 p 0).machine.inventory.hasStock 3).1 = false := by
  refine ⟨hasStock_true_iff inv s, hasStock_snd inv s, ?_⟩
  intro w p
  have h : (VendingMachine.loadProduct w 3 p 0).machine.inventory.slots 3 = some ⟨p, 0⟩ := by
    show (w.machine.inventory.addSlot 3 p 0).slots 3 = _
    rw [addSlot_slots]
    exact assign_same _ _ _
  rw [hasStock_of_some h]
  rfl

/-- C8: `getQuantity(s)` returns the stored quantity of the entry at `s` when
one exists and 0 when none exists; it has no failure path and leaves the
inventory unchanged. -/
theorem getQuantity_spec (inv : Inventory) (s : Int) :
    (∀ sl, inv.slots s = some sl → (inv.getQuantity s).1 = sl.quantity) ∧
      (inv.slots s = none → (inv.getQuantity s).1 = 0) ∧
      (inv.getQuantity s).2 = inv := by
  refine ⟨fun sl h => ?_, fun h => ?_, getQuantity_snd inv s⟩
  · rw [getQuantity_of_some h]
  · rw [getQuantity_of_none h]

/-! ## C9: loading and querying -/

/-- C9: whatever the prior state (slot `s` absent, or holding another product
and quantity), after `loadProduct(s, P, q)` the entry at `s` is exactly
`Slot(P, q)`: `getQuantity(s) == q`, `getProduct(s)` succeeds with `P`, and
`hasStock(s) == (q > 0)`; after `loadProduct(5, P, 3)`, `hasStock(5)` is true. -/
theorem loadProduct_roundtrip (w : World) (s : Int) (P : Product) (q : Int) :
    (VendingMachine.loadProduct w s P q).machine.inventory.slots s = some ⟨P, q⟩ ∧
      ((VendingMachine.loadProduct w s P q).machine.inventory.getQuantity s).1 = q ∧
      (VendingMachine.loadProduct w s P q).machine.inventory.getProduct s
        = .ok (P, (VendingMachine.loadProduct w s P q).machine.inventory) ∧
      ((VendingMachine.loadProduct w s P q).machine.inventory.hasStock s).1 = decide (0 < q) ∧
      ((VendingMachine.loadProduct w 5 P 3).machine.inventory.hasStock 5).1 = true := by
  have h : ∀ (k : Int) (n : Int),
      (VendingMachine.loadProduct w k P n).machine.inventory.slots k = some ⟨P, n⟩ := by
    intro k n
    show (w.machine.inventory.addSlot k P n).slots k = _
    rw [addSlot_slots]
    exact assign_same _ _ _
  refine ⟨h s q, ?_, ?_, ?_, ?_⟩
  · rw [getQuantity_of_some (h s q)]
  · rw [getProduct_of_some (h s q)]
  · rw [hasStock_of_some (h s q)]
  · rw [hasStock_of_some (h 5 3)]
    rfl

/-! ## C10: no operation of the machine throws -/

theorem displayItems_body_of_stock {w : World} {i : Int} {sl : Slot}
    (h : w.machine.inventory.slots i = some sl) (hq : 0 < sl.quantity) :
    VendingMachine.displayItems.body w i =
      .ok (w.print [.str "Slot ", .num i, .str ": ", .str sl.product.name, .str " (Rs ",
        .dbl sl.product.price, .str "), Qty: ", .num sl.quantity, .str "\n"]) := by
  simp [VendingMachine.displayItems.body, getQuantity_of_some h, hq, getProduct_of_some h,
    withInventory_self]

theorem displayItems_body_of_no_stock {w : World} {i : Int}
    (h : (w.machine.inventory.getQuantity i).1 ≤ 0) :
    VendingMachine.displayItems.body w i = .ok w := by
  simp [VendingMachine.displayItems.body, not_lt.2 h, getQuantity_snd, withInventory_self]

theorem displayItems_body_ok (w : World) (i : Int) :
    ∃ w2, VendingMachine.displayItems.body w i = .ok w2 := by
  cases h : w.machine.inventory.slots i with
  | none =>
    refine ⟨w, displayItems_body_of_no_stock ?_⟩
    rw [getQuantity_of_none h]
  | some sl =>
    by_cases hq : 0 < sl.quantity
    · exact ⟨_, displayItems_body_of_stock h hq⟩
    · refine ⟨w, displayItems_body_of_no_stock ?_⟩
      rw [getQuantity_of_some h]
      exact not_lt.1 hq

theorem displayItems_loop_ok (ids : List Nat) :
    ∀ w : World, ∃ w2,
      ids.foldlM (fun (acc : World) (i : Nat) => VendingMachine.displayItems.body acc i) w
        = .ok w2 := by
  induction ids with
  | nil => intro w; exact ⟨w, rfl⟩
  | cons i rest ih =>
    intro w
    obtain ⟨w1, h1⟩ := displayItems_body_ok w i
    obtain ⟨w2, h2⟩ := ih w1
    refine ⟨w2, ?_⟩
    rw [List.foldlM_cons, h1]
    exact h2

/-- C10: for every machine state, slot id `s` and payment strategy `m`,
`buy(s, m)` completes without throwing, returning false when slot `s` has no
entry or a quantity of 0 or less; and `displayItems` completes without
throwing. The only `throw` of the program is in `getProduct`, so both
operations call it only on slots that have an entry. -/
theorem machine_never_throws (w : World) (s : Int) (m : PaymentStrategy) :
    (∃ r, VendingMachine.buy w s m = .ok r ∧
      (w.machine.inventory.slots s = none → r.1 = false) ∧
      (∀ sl, w.machine.inventory.slots s = some sl → sl.quantity ≤ 0 → r.1 = false)) ∧
      ∃ w2, VendingMachine.displayItems w = .ok w2 := by
  refine ⟨?_, displayItems_loop_ok _ _⟩
  by_cases hs : (w.machine.inventory.hasStock s).1 = true
  · obtain ⟨sl, hsl, hq⟩ := (hasStock_true_iff _ _).1 hs
    obtain ⟨r, hr⟩ := buy_ok w s m
    refine ⟨r, hr, ?_, ?_⟩
    · intro hnone
      rw [hnone] at hsl
      cases hsl
    · intro sl2 hsl2 hq2
      rw [hsl2] at hsl
      cases hsl
      omega
  · have hs2 : (w.machine.inventory.hasStock s).1 = false := by simpa using hs
    exact ⟨_, buy_of_no_stock m hs2, fun _ => rfl, fun _ _ _ => rfl⟩

/-! ## C11 and C12: the listing -/

theorem displayItems_loop_eq (ids : List Nat) :
    ∀ w : World,
      ids.foldlM (fun (acc : World) (i : Nat) => VendingMachine.displayItems.body acc i) w
        = .ok { machine := w.machine,
                cout := w.cout ++ (availableAmong ids w.machine.inventory).map itemLine } := by
  induction ids with
  | nil =>
    intro w
    simp [availableAmong]
    rfl
  | cons i rest ih =>
    intro w
    rw [List.foldlM_cons]
    cases h : w.machine.inventory.slots i with
    | none =>
      have hq : (w.machine.inventory.getQuantity i).1 ≤ 0 := by rw [getQuantity_of_none h]
      rw [displayItems_body_of_no_stock hq]
      show List.foldlM _ w rest = _
      rw [ih w]
      simp [availableAmong, not_lt.2 hq]
    | some sl =>
      by_cases hq : 0 < sl.quantity
      · rw [displayItems_body_of_stock h hq]
        show List.foldlM _ (w.print _) rest = _
        rw [ih]
        simp [availableAmong, getQuantity_of_some h, hq, h, World.print, itemLine]
      · have hq2 : (w.machine.inventory.getQuantity i).1 ≤ 0 := by
          rw [getQuantity_of_some h]
          exact not_lt.1 hq
        rw [displayItems_body_of_no_stock hq2]
        show List.foldlM _ w rest = _
        rw [ih w]
        simp [availableAmong, not_lt.2 hq2]

theorem displayItems_eq (w : World) :
    VendingMachine.displayItems w
      = .ok { machine := w.machine,
              cout := w.cout ++
                Output.info "Available items:" :: (listAvailable w.machine.inventory).map itemLine } := by
  unfold VendingMachine.displayItems
  rw [displayItems_loop_eq]
  simp [Logger.info, listAvailable]

theorem mem_availableAmong (ids : List Nat) (inv : Inventory) (i : Int) (p : Product) (q : Int) :
    (i, p, q) ∈ availableAmong ids inv ↔
      (∃ n ∈ ids, (n : Int) = i) ∧ inv.slots i = some ⟨p, q⟩ ∧ 0 < q := by
  unfold availableAmong
  rw [List.mem_filterMap]
  constructor
  · rintro ⟨n, hn, hf⟩
    cases h : inv.slots n with
    | none => simp [getQuantity_of_none h] at hf
    | some sl =>
      rw [getQuantity_of_some h] at hf
      by_cases hq : 0 < sl.quantity
      · simp only [hq, if_true, h, Option.map_some', Option.some.injEq, Prod.mk.injEq] at hf
        obtain ⟨h1, h2, h3⟩ := hf
        subst h1 h2 h3
        exact ⟨⟨n, hn, rfl⟩, h, hq⟩
      · simp [hq] at hf
  · rintro ⟨⟨n, hn, rfl⟩, h, hq⟩
    refine ⟨n, hn, ?_⟩
    rw [getQuantity_of_some h]
    simp [hq, h]

theorem pairwise_availableAmong {ids : List Nat} (h : ids.Pairwise (· < ·)) (inv : Inventory) :
    (availableAmong ids inv).Pairwise (fun a b => a.1 < b.1) := by
  unfold availableAmong
  refine List.Pairwise.filterMap _ ?_ h
  intro a b hab x hx y hy
  have hxa : x.1 = (a : Int) := by
    by_cases hq : 0 < (inv.getQuantity a).1
    · cases hs : inv.slots a with
      | none => simp [hq, hs] at hx
      | some sl =>
        simp only [hq, if_true, hs, Option.map_some', Option.mem_def, Option.some.injEq] at hx
        rw [← hx]
    · simp [hq] at hx
  have hyb : y.1 = (b : Int) := by
    by_cases hq : 0 < (inv.getQuantity b).1
    · cases hs : inv.slots b with
      | none => simp [hq, hs] at hy
      | some sl =>
        simp only [hq, if_true, hs, Option.map_some', Option.mem_def, Option.some.injEq] at hy
        rw [← hy]
    · simp [hq] at hy
  rw [hxa, hyb]
  exact Int.ofNat_lt.2 hab

/-- C11: `displayItems` never throws, leaves the machine as it was and writes,
after the header line, one line per item of `listAvailable`, in that order.
An item `(i, p, q)` is in that list if and only if `1 <= i <= 10`,
`getQuantity(i) > 0` and slot `i` stores product `p` with quantity `q`; the
list is strictly ascending in the slot id, so every such slot appears exactly
once and no other slot appears. -/
theorem displayItems_lists_available (w : World) :
    VendingMachine.displayItems w
        = .ok { machine := w.machine,
                cout := w.cout ++
                  Output.info "Available items:" ::
                    (listAvailable w.machine.inventory).map itemLine } ∧
      (∀ (i : Int) (p : Product) (q : Int),
        (i, p, q) ∈ listAvailable w.machine.inventory ↔
          1 ≤ i ∧ i ≤ 10 ∧ 0 < (w.machine.inventory.getQuantity i).1 ∧
            w.machine.inventory.slots i = some ⟨p, q⟩) ∧
      (listAvailable w.machine.inventory).Pairwise (fun a b => a.1 < b.1) ∧
      ((listAvailable w.machine.inventory).map (fun a => a.1)).Nodup := by
  have hsorted : (List.range' 1 10).Pairwise (· < ·) := by decide
  have hpw := pairwise_availableAmong hsorted w.machine.inventory
  refine ⟨displayItems_eq w, ?_, hpw, ?_⟩
  · intro i p q
    unfold listAvailable
    rw [mem_availableAmong]
    constructor
    · rintro ⟨⟨n, hn, rfl⟩, hs, hq⟩
      rw [List.mem_range'_1] at hn
      refine ⟨by omega, by omega, ?_, hs⟩
      rw [getQuantity_of_some hs]
      exact hq
    · rintro ⟨h1, h10, hq, hs⟩
      rw [getQuantity_of_some hs] at hq
      refine ⟨⟨i.toNat, ?_, ?_⟩, hs, hq⟩
      · rw [List.mem_range'_1]
        omega
      · omega
  · rw [List.Nodup, List.pairwise_map]
    exact hpw.imp (fun h => ne_of_lt h)

/-- C12: `displayItems` leaves the machine (and so the inventory) exactly as
it was, and two calls in a row append the same sequence of lines to the
console. -/
theorem displayItems_idempotent (w : World) :
    ∃ w1 w2 lines,
      VendingMachine.displayItems w = .ok w1 ∧ VendingMachine.displayItems w1 = .ok w2 ∧
        w1.machine = w.machine ∧ w2.machine = w.machine ∧
        w1.cout = w.cout ++ lines ∧ w2.cout = w1.cout ++ lines ∧
        listAvailable w1.machine.inventory = listAvailable w.machine.inventory :=
  ⟨_, _, _, displayItems_eq w, displayItems_eq _, rfl, rfl, rfl, rfl, rfl⟩

/-! ## C13: the payment service -/

/-- C13: `processPayment(m, a)` is one call of `m.pay` with the same amount `a`,
made after `m.name()` has been asked for the display name and exactly one log
line (with that name and the amount) has been appended to the console, and
its result is what that call returned; when `m.name()` only returns its text,
the world handed to `pay` is the original one plus that line. For a strategy
that marks each call of its `pay`, exactly one mark is added, carrying `a`,
right after the log line, whatever the verdict. -/
theorem processPayment_spec (m : PaymentStrategy) (a : Float) (w : World) :
    PaymentService.processPayment m a w
        = m.pay a
            { machine := (m.name w).2.machine,
              cout := (m.name w).2.cout ++
                [Output.info
                  ("Using " ++ (m.name w).1 ++ " to pay Rs " ++ to_string_double a)] } ∧
      (∀ n : String, m.name w = (n, w) →
        PaymentService.processPayment m a w
          = m.pay a
              { machine := w.machine,
                cout := w.cout ++
                  [Output.info ("Using " ++ n ++ " to pay Rs " ++ to_string_double a)] }) ∧
      ∀ verdict : Bool,
        (PaymentService.processPayment (markingPayment verdict) a w).1 = verdict ∧
          (PaymentService.processPayment (markingPayment verdict) a w).2.machine = w.machine ∧
          (PaymentService.processPayment (markingPayment verdict) a w).2.cout
            = w.cout ++
                [Output.info ("Using " ++ "Marking" ++ " to pay Rs " ++ to_string_double a),
                  Output.text [.dbl a]] ∧
          payMarks (PaymentService.processPayment (markingPayment verdict) a w).2.cout
            = payMarks w.cout + 1 := by
  refine ⟨rfl, ?_, fun verdict => ⟨rfl, rfl, ?_, ?_⟩⟩
  · intro n hn
    unfold PaymentService.processPayment
    rw [hn]
    rfl
  · simp [PaymentService.processPayment, markingPayment, Logger.info, World.print]
  · simp [PaymentService.processPayment, markingPayment, Logger.info, World.print, payMarks,
      List.countP_append, List.countP_cons, isPayMark]

/-! ## C14: the `consumeOne` call inside `buy` -/

/-- C14, as stated, fails: the strategy `reloadingName` has a `pay` that never
modifies the inventory, yet on the machine with 5 bags of chips in slot 1,
`buy(1, m)` confirms the stock, runs `m.name()` (which reloads slot 1 with
quantity 0) inside `processPayment`, gets true from `pay`, and then reaches a
`consumeOne(1)` that returns false; `buy` still returns true. -/
theorem buy_consumeOne_counterexample :
    (∀ (a : Float) (v : World),
        (reloadingName.pay a v).2.machine.inventory = v.machine.inventory) ∧
      (scenarioA.machine.inventory.hasStock 1).1 = true ∧
      (PaymentService.processPayment reloadingName chips.price
          (scenarioA.print [.str "Selected: ", .str chips.name, .str " (Rs ",
            .dbl chips.price, .str ")\n"])).1 = true ∧
      ((PaymentService.processPayment reloadingName chips.price
          (scenarioA.print [.str "Selected: ", .str chips.name, .str " (Rs ",
            .dbl chips.price, .str ")\n"])).2.machine.inventory.consumeOne 1).1 = false ∧
      VendingMachine.buy scenarioA 1 reloadingName
        = .ok (VendingMachine.buy.outcome scenarioA 1 reloadingName) ∧
      (VendingMachine.buy.outcome scenarioA 1 reloadingName).1 = true ∧
      (scenarioA.machine.inventory.getQuantity 1).1 = 5 ∧
      ((VendingMachine.buy.outcome scenarioA 1
          reloadingName).2.machine.inventory.getQuantity 1).1 = 0 := by
  refine ⟨fun _ _ => rfl, ?_, rfl, ?_, rfl, rfl, ?_, ?_⟩ <;> decide

/-- C14, amended: for a strategy whose `name` and `pay` do not modify the
inventory, whenever `buy(s, m)` reaches `inventory.consumeOne(s)` (slot `s`
holds an entry with quantity above 0 and `processPayment` returned true), that
call returns true; `buy` then returns true with the quantity of slot `s` one
lower than before. -/
theorem buy_consumeOne_succeeds (w : World) (s : Int) (m : PaymentStrategy) (sl : Slot)
    (hm : m.keepsInventory) (hsl : w.machine.inventory.slots s = some sl)
    (hq : 0 < sl.quantity)
    (hp : (PaymentService.processPayment m sl.product.price
            (w.print [.str "Selected: ", .str sl.product.name, .str " (Rs ",
              .dbl sl.product.price, .str ")\n"])).1 = true) :
    ((PaymentService.processPayment m sl.product.price
        (w.print [.str "Selected: ", .str sl.product.name, .str " (Rs ",
          .dbl sl.product.price, .str ")\n"])).2.machine.inventory.consumeOne s).1 = true ∧
      ∃ r, VendingMachine.buy w s m = .ok r ∧ r.1 = true ∧
        (r.2.machine.inventory.getQuantity s).1 = sl.quantity - 1 := by
  have hinv := processPayment_inventory hm sl.product.price
    (w.print [.str "Selected: ", .str sl.product.name, .str " (Rs ",
      .dbl sl.product.price, .str ")\n"])
  have hb := buy_of_stock m hsl hq
  generalize PaymentService.processPayment m sl.product.price
    (w.print [.str "Selected: ", .str sl.product.name, .str " (Rs ",
      .dbl sl.product.price, .str ")\n"]) = paid at hb hinv hp
  have hsl2 : paid.2.machine.inventory.slots s = some sl := by
    rw [hinv]
    exact hsl
  refine ⟨?_, ?_⟩
  · rw [consumeOne_of_stock hsl2 hq]
  · rw [hb, if_neg (by simp [hp])]
    refine ⟨_, rfl, rfl, ?_⟩
    show ((paid.2.machine.inventory.consumeOne s).2.getQuantity s).1 = _
    rw [consumeOne_getQuantity_same hsl2 hq, getQuantity_of_some hsl2]

/-- Witness of the amended C14: on the machine with 5 bags of chips in slot 1,
`buy(1, CashPayment)` reaches `consumeOne(1)`, which returns true. -/
theorem buy_consumeOne_succeeds_witness :
    CashPayment.keepsInventory ∧ scenarioA.machine.inventory.slots 1 = some ⟨chips, 5⟩ ∧
      ((PaymentService.processPayment CashPayment chips.price
          (scenarioA.print [.str "Selected: ", .str chips.name, .str " (Rs ",
            .dbl chips.price, .str ")\n"])).2.machine.inventory.consumeOne 1).1 = true ∧
      ∃ r, VendingMachine.buy scenarioA 1 CashPayment = .ok r ∧ r.1 = true ∧
        (r.2.machine.inventory.getQuantity 1).1 = 5 - 1 :=
  ⟨cash_keepsInventory, rfl,
    buy_consumeOne_succeeds scenarioA 1 CashPayment ⟨chips, 5⟩ cash_keepsInventory rfl
      (by decide) rfl⟩

/-! ## C15: preservation of non-negative quantities -/

theorem scenarioA_nonNegative : scenarioA.machine.inventory.nonNegative :=
  addSlot_nonNegative fresh_nonNegative 1 chips (by decide)

/-- C15: given non-negative loads (the quantity `q` of the load considered is
at least 0, and the payment strategy makes no negative load from its `name`
or `pay`), if every stored slot has a quantity of at least 0, then so it is
after `consumeOne(s)`, after `addSlot` and `loadProduct(s, P, q)`, and after
`buy(s, m)`, which runs to completion; and `consumeOne` decrements only a
quantity that is strictly positive. -/
theorem nonNegative_preserved (w : World) (s : Int) (m : PaymentStrategy) (P : Product)
    (q : Int) (h : w.machine.inventory.nonNegative) (hm : m.keepsNonNegative) (hq : 0 ≤ q) :
    (w.machine.inventory.consumeOne s).2.nonNegative ∧
      (w.machine.inventory.addSlot s P q).nonNegative ∧
      (VendingMachine.loadProduct w s P q).machine.inventory.nonNegative ∧
      (∃ r, VendingMachine.buy w s m = .ok r ∧ r.2.machine.inventory.nonNegative) ∧
      ((w.machine.inventory.consumeOne s).1 = true →
        ∃ sl, w.machine.inventory.slots s = some sl ∧ 0 < sl.quantity ∧
          (w.machine.inventory.consumeOne s).2.slots s
            = some ⟨sl.product, sl.quantity - 1⟩) := by
  refine ⟨consumeOne_nonNegative h s, addSlot_nonNegative h s P hq,
    addSlot_nonNegative h s P hq, ?_, ?_⟩
  · obtain ⟨r, hr⟩ := buy_ok w s m
    exact ⟨r, hr, buy_nonNegative hm h hr⟩
  · intro hc
    cases hs : w.machine.inventory.slots s with
    | none =>
      rw [consumeOne_of_none hs] at hc
      cases hc
    | some sl =>
      by_cases hq2 : 0 < sl.quantity
      · refine ⟨sl, rfl, hq2, ?_⟩
        rw [consumeOne_of_stock hs hq2]
        exact assign_same _ _ _
      · rw [consumeOne_of_empty hs (not_lt.1 hq2)] at hc
        cases hc

/-- Witness of C15: the machine with 5 bags of chips in slot 1 has no negative
quantity, and keeps none through `consumeOne(1)`, a load of 3, and a purchase
whose `pay` itself loads 3 items into slot 2 and then makes a nested cash
purchase. -/
theorem nonNegative_preserved_witness :
    scenarioA.machine.inventory.nonNegative ∧
      (buyingPayment 1 (loadingPayment 2 chips 3 true)).keepsNonNegative ∧ (0 : Int) ≤ 3 ∧
      (scenarioA.machine.inventory.consumeOne 1).2.nonNegative ∧
      (scenarioA.machine.inventory.addSlot 1 chips 3).nonNegative ∧
      (VendingMachine.loadProduct scenarioA 1 chips 3).machine.inventory.nonNegative ∧
      (∃ r, VendingMachine.buy scenarioA 1 (buyingPayment 1 (loadingPayment 2 chips 3 true))
          = .ok r ∧ r.2.machine.inventory.nonNegative) ∧
      ((scenarioA.machine.inventory.consumeOne 1).1 = true →
        ∃ sl, scenarioA.machine.inventory.slots 1 = some sl ∧ 0 < sl.quantity ∧
          (scenarioA.machine.inventory.consumeOne 1).2.slots 1
            = some ⟨sl.product, sl.quantity - 1⟩) :=
  ⟨scenarioA_nonNegative,
    buyingPayment_keepsNonNegative 1 (loadingPayment_keepsNonNegative 2 chips (by decide) true),
    by decide,
    nonNegative_preserved scenarioA 1 (buyingPayment 1 (loadingPayment 2 chips 3 true)) chips 3
      scenarioA_nonNegative
      (buyingPayment_keepsNonNegative 1
        (loadingPayment_keepsNonNegative 2 chips (by decide) true))
      (by decide)⟩

/-! ## C16: `pay` is called only for an available item -/

/-- C16: when `hasStock(s)` is false, `buy(s, m)` returns false having written
only the "Item not available" line: the result does not depend on `m`, whose
`pay` (and `name`) is not called, and no payment log line is written. When
`hasStock(s)` is true, the result of `buy(s, m)` is determined by one call of
`m.pay`, made with the stored price right after `m.name()` has run and the
"Using ..." log line has been written. For a strategy
that marks each call of its `pay`, `buy` adds no mark in the first case and
exactly one in the second. -/
theorem buy_pays_only_with_stock (w : World) (s : Int) (m : PaymentStrategy) :
    ((w.machine.inventory.hasStock s).1 = false →
        VendingMachine.buy w s m = .ok (false, w.print [.str "Item not available\n"])) ∧
      ((w.machine.inventory.hasStock s).1 = true →
        ∃ sl paid, w.machine.inventory.slots s = some sl ∧
          paid = m.pay sl.product.price
            (Logger.info
              (m.name (w.print [.str "Selected: ", .str sl.product.name, .str " (Rs ",
                .dbl sl.product.price, .str ")\n"])).2
              ("Using " ++
                (m.name (w.print [.str "Selected: ", .str sl.product.name, .str " (Rs ",
                  .dbl sl.product.price, .str ")\n"])).1 ++
                " to pay Rs " ++ to_string_double sl.product.price)) ∧
          VendingMachine.buy w s m =
            if paid.1 = false then .ok (false, paid.2.print [.str "Payment failed.\n"])
            else .ok (true,
              (paid.2.withInventory (paid.2.machine.inventory.consumeOne s).2).print
                [.str "Dispensing ", .str sl.product.name, .str "\n"])) ∧
      ∀ verdict : Bool,
        payMarks (VendingMachine.buy.outcome w s (markingPayment verdict)).2.cout
          = payMarks w.cout + (if (w.machine.inventory.hasStock s).1 = true then 1 else 0) := by
  refine ⟨fun hs => buy_of_no_stock m hs, ?_, ?_⟩
  · intro hs
    obtain ⟨sl, hsl, hq⟩ := (hasStock_true_iff _ _).1 hs
    exact ⟨sl, _, hsl, rfl, buy_of_stock m hsl hq⟩
  · intro verdict
    by_cases hs : (w.machine.inventory.hasStock s).1 = true
    · obtain ⟨sl, hsl, hq⟩ := (hasStock_true_iff _ _).1 hs
      rw [if_pos hs]
      unfold VendingMachine.buy.outcome
      rw [buy_of_stock _ hsl hq]
      cases verdict <;>
        simp [PaymentService.processPayment, markingPayment, Logger.info, World.print,
          World.withInventory, payMarks, List.countP_append, List.countP_cons, isPayMark]
    · have hs2 : (w.machine.inventory.hasStock s).1 = false := by simpa using hs
      rw [if_neg hs]
      unfold VendingMachine.buy.outcome
      rw [buy_of_no_stock _ hs2]
      simp [World.print, payMarks, List.countP_append, List.countP_cons, isPayMark]

/-! ## C17: selling out a slot -/

theorem buy_cash_of_stock {w : World} {s : Int} {sl : Slot}
    (hsl : w.machine.inventory.slots s = some sl) (hq : 0 < sl.quantity) :
    ∃ w2, VendingMachine.buy w s CashPayment = .ok (true, w2) ∧
      w2.machine.inventory.slots s = some ⟨sl.product, sl.quantity - 1⟩ := by
  have hb := buy_of_stock CashPayment hsl hq
  have hc : (w.machine.inventory.consumeOne s).2.slots s
      = some ⟨sl.product, sl.quantity - 1⟩ := by
    rw [consumeOne_of_stock hsl hq]
    exact assign_same _ _ _
  rw [if_neg (by simp [PaymentService.processPayment, CashPayment])] at hb
  exact ⟨_, hb, hc⟩

theorem buy_of_empty {w : World} {s : Int} {sl : Slot} (m : PaymentStrategy)
    (hsl : w.machine.inventory.slots s = some sl) (hq : sl.quantity ≤ 0) :
    VendingMachine.buy w s m = .ok (false, w.print [.str "Item not available\n"]) := by
  apply buy_of_no_stock
  rw [hasStock_of_some hsl]
  simp [hq]

theorem buyTimes_cash (s : Int) (p : Product) (k : Nat) :
    ∀ (w : World) (n : Nat), w.machine.inventory.slots s = some ⟨p, (n : Int)⟩ →
      (buyTimes w s CashPayment k).1
          = List.replicate (min k n) true ++ List.replicate (k - n) false ∧
        (buyTimes w s CashPayment k).2.machine.inventory.slots s
          = some ⟨p, ((n - k : Nat) : Int)⟩ := by
  induction k with
  | zero =>
    intro w n h
    simp [buyTimes, h]
  | succ k ih =>
    intro w n h
    cases n with
    | zero =>
      have hb := buy_of_empty CashPayment h (le_refl _)
      obtain ⟨h1, h2⟩ := ih (w.print [.str "Item not available\n"]) 0 h
      simp only [buyTimes, hb]
      refine ⟨?_, ?_⟩
      · rw [h1]
        simp [List.replicate_succ]
      · rw [h2]
        simp
    | succ n =>
      obtain ⟨w2, hb, hw2⟩ := buy_cash_of_stock h (by
        show (0 : Int) < ((n + 1 : Nat) : Int)
        omega)
      have hw3 : w2.machine.inventory.slots s = some ⟨p, (n : Int)⟩ := by
        rw [hw2]
        show some (Slot.mk p (((n + 1 : Nat) : Int) - 1)) = _
        congr 2
        omega
      obtain ⟨h1, h2⟩ := ih w2 n hw3
      simp only [buyTimes, hb]
      refine ⟨?_, ?_⟩
      · rw [h1]
        simp [List.replicate_succ, Nat.succ_min_succ]
      · rw [h2]
        simp

/-- C17: for a quantity `q >= 0`, after `loadProduct(s, P, q)` followed by `k`
consecutive `buy(s, CashPayment)` calls, the first `min(k, q)` calls return
true, the remaining ones return false, and `getQuantity(s) == max(q - k, 0)`. -/
theorem sells_out_after_loaded_quantity (w : World) (s : Int) (P : Product) (q : Int) (k : Nat)
    (hq : 0 ≤ q) :
    (buyTimes (VendingMachine.loadProduct w s P q) s CashPayment k).1
        = List.replicate (min k q.toNat) true ++ List.replicate (k - q.toNat) false ∧
      ((buyTimes (VendingMachine.loadProduct w s P q) s CashPayment
          k).2.machine.inventory.getQuantity s).1 = max (q - k) 0 := by
  have hload : (VendingMachine.loadProduct w s P q).machine.inventory.slots s
      = some ⟨P, ((q.toNat : Nat) : Int)⟩ := by
    show (w.machine.inventory.addSlot s P q).slots s = _
    rw [addSlot_slots, assign_same, Int.toNat_of_nonneg hq]
  obtain ⟨h1, h2⟩ := buyTimes_cash s P k _ q.toNat hload
  refine ⟨h1, ?_⟩
  rw [getQuantity_of_some h2]
  show ((q.toNat - k : Nat) : Int) = max (q - k) 0
  omega

/-- Witness of C17: a slot loaded with 2 items and bought from 3 times with
cash answers true, true, false and ends with quantity 0. -/
theorem sells_out_after_loaded_quantity_witness :
    (0 : Int) ≤ 2 ∧
      (buyTimes (VendingMachine.loadProduct World.fresh 1 chips 2) 1 CashPayment 3).1
        = [true, true, false] ∧
      ((buyTimes (VendingMachine.loadProduct World.fresh 1 chips 2) 1 CashPayment
          3).2.machine.inventory.getQuantity 1).1 = max (2 - (3 : Nat)) 0 :=
  ⟨by decide, sells_out_after_loaded_quantity World.fresh 1 chips 2 3 (by decide)⟩

/-! ## C18 and C19: what the operations leave untouched -/

/-- C19: for slot ids `s` and `t` with `t != s`, `addSlot` and
`loadProduct(s, P, q)` leave the entry at `t` as it was (present or absent,
with the same product and quantity), and with it `getQuantity(t)`,
`hasStock(t)` and the outcome of `getProduct(t)`. -/
theorem loadProduct_other_slot (w : World) (s t : Int) (P : Product) (q : Int) (h : t ≠ s) :
    (w.machine.inventory.addSlot s P q).slots t = w.machine.inventory.slots t ∧
      (VendingMachine.loadProduct w s P q).machine.inventory.slots t
        = w.machine.inventory.slots t ∧
      ((VendingMachine.loadProduct w s P q).machine.inventory.getQuantity t).1
        = (w.machine.inventory.getQuantity t).1 ∧
      ((VendingMachine.loadProduct w s P q).machine.inventory.hasStock t).1
        = (w.machine.inventory.hasStock t).1 ∧
      ((VendingMachine.loadProduct w s P q).machine.inventory.getProduct t).map (fun r => r.1)
        = (w.machine.inventory.getProduct t).map (fun r => r.1) := by
  have hslots : (VendingMachine.loadProduct w s P q).machine.inventory.slots t
      = w.machine.inventory.slots t := by
    show (w.machine.inventory.addSlot s P q).slots t = _
    rw [addSlot_slots]
    exact assign_other _ _ h
  refine ⟨hslots, hslots, getQuantity_fst_congr hslots, ?_, ?_⟩
  · cases ht : w.machine.inventory.slots t with
    | none => rw [hasStock_of_none ht, hasStock_of_none (hslots.trans ht)]
    | some v => rw [hasStock_of_some ht, hasStock_of_some (hslots.trans ht)]
  · cases ht : w.machine.inventory.slots t with
    | none => rw [getProduct_of_none ht, getProduct_of_none (hslots.trans ht)]
    | some v =>
      rw [getProduct_of_some ht, getProduct_of_some (hslots.trans ht)]
      rfl

/-- Witness of C19: loading slot 2 on the machine with 5 bags of chips in
slot 1 leaves slot 1 as it was. -/
theorem loadProduct_other_slot_witness :
    (1 : Int) ≠ 2 ∧
      (scenarioA.machine.inventory.addSlot 2 chips 3).slots 1
        = scenarioA.machine.inventory.slots 1 ∧
      (VendingMachine.loadProduct scenarioA 2 chips 3).machine.inventory.slots 1
        = scenarioA.machine.inventory.slots 1 ∧
      ((VendingMachine.loadProduct scenarioA 2 chips 3).machine.inventory.getQuantity 1).1
        = (scenarioA.machine.inventory.getQuantity 1).1 ∧
      ((VendingMachine.loadProduct scenarioA 2 chips 3).machine.inventory.hasStock 1).1
        = (scenarioA.machine.inventory.hasStock 1).1 ∧
      ((VendingMachine.loadProduct scenarioA 2 chips 3).machine.inventory.getProduct 1).map
          (fun r => r.1)
        = (scenarioA.machine.inventory.getProduct 1).map (fun r => r.1) :=
  ⟨by decide, loadProduct_other_slot scenarioA 2 1 chips 3 (by decide)⟩

end Vending
